import Mathlib

/-!
Verification of the Argas checkout payment flow.

This file gives a shallow embedding, in Lean, of the core logic of the
repository (the Stripe checkout-based payer, its response handling, the
checkout URL parser and the card material generator) and proves the
specified properties about that embedding.

Conventions of the embedding:
  - JS strings are Lean `String` or `List Char`; byte values are `Nat`
    (with explicit bounds where relevant).
  - JS numbers that are integers are `Int` or `Nat`; the normalizer in
    `checkout-info` only ever yields a number or `null` for amount
    fields, so amount fields are `Option Int` with `none` meaning
    `null` (which coerces to `0` in JS arithmetic and is falsy).
  - Fallible JS operations (network calls, `decodeURIComponent`) are
    `Except`/`Option`; `try`/`catch` is explicit case analysis.
  - Object field absence is `Option`/`none`; JS truthiness is made
    explicit by dedicated helpers (`jsOrInt`, `jsStrFalsy`, ...).
-/

namespace Argas

instance {ε α : Type} [DecidableEq ε] [DecidableEq α] : DecidableEq (Except ε α) := fun x y =>
  match x, y with
  | .ok a, .ok b =>
    if h : a = b then .isTrue (by rw [h])
    else .isFalse (fun hc => h (by injection hc))
  | .error a, .error b =>
    if h : a = b then .isTrue (by rw [h])
    else .isFalse (fun hc => h (by injection hc))
  | .ok _, .error _ => .isFalse (fun hc => Except.noConfusion hc)
  | .error _, .ok _ => .isFalse (fun hc => Except.noConfusion hc)

/-! ## JS value helpers -/

/-- JS `a || b` for a possibly null or absent number `a` (with
`none` and `some 0` both falsy), yielding a plain integer. -/
def jsOrInt (a : Option Int) (b : Int) : Int :=
  match a with
  | some x => if x = 0 then b else x
  | none => b

/-- JS coercion of a number-or-null to a number: `null` coerces to `0`
in arithmetic. -/
def jsNumOfNull (a : Option Int) : Int := a.getD 0

/-- JS truthiness check of a possibly absent string: absent and the
empty string are falsy. -/
def jsStrFalsy (a : Option String) : Bool :=
  match a with
  | some s => s = ""
  | none => true

/-- JS `a || b` for a possibly absent string. -/
def jsOrStr (a : Option String) (b : String) : String :=
  match a with
  | some s => if s = "" then b else s
  | none => b

/-! ## Luhn checksum and card number generation

Embedding of `validateLuhn` and the number part of `generateCardFromBin`
in `src/gateways/stripe/checkout-based/payer.js` (lines 27-91).  A card
number is a list of decimal digits, most significant first.  The JS
loops run over the string from its last character to its first; the
embedding processes the reversed digit list from its head. -/

/-- Double a digit and subtract 9 when the result exceeds 9, exactly as
the loop body of `validateLuhn` does. -/
def luhnDouble (d : Nat) : Nat := if d * 2 > 9 then d * 2 - 9 else d * 2

/-- Sum of a reversed digit list with alternate doubling; the flag says
whether the current (rightmost remaining) digit is doubled. -/
def luhnSumRev : List Nat → Bool → Nat
  | [], _ => 0
  | d :: ds, dbl => (if dbl then luhnDouble d else d) + luhnSumRev ds (!dbl)

/-- The `validateLuhn` function of `payer.js` (lines 27-40): the
alternating sum starting undoubled at the last digit must be divisible
by 10. -/
def validateLuhn (card : List Nat) : Bool :=
  luhnSumRev card.reverse false % 10 == 0

/-- The check digit computed by `generateCardFromBin` (lines 73-85):
the alternating sum of the body starts doubled at the last body digit,
and the check digit is `(10 - sum % 10) % 10`. -/
def checkDigitFor (body : List Nat) : Nat :=
  (10 - luhnSumRev body.reverse true % 10) % 10

/-- Target card length by BIN brand (lines 55-65): 15 for prefixes 34
and 37, 14 for 36 and 38, 16 otherwise. -/
def targetLengthFor (bin : List Nat) : Nat :=
  if bin.take 2 = [3, 4] ∨ bin.take 2 = [3, 7] then 15
  else if bin.take 2 = [3, 6] ∨ bin.take 2 = [3, 8] then 14
  else 16

/-- The body of the card number before the check digit (lines 67-71):
the BIN digits followed by random digits up to `target - 1` characters.
The random source is a digit stream `fill`; `% 10` records that
`Math.floor(Math.random() * 10)` is a digit. -/
def padBody (bin : List Nat) (fill : Nat → Nat) (target : Nat) : List Nat :=
  bin ++ (List.range (target - 1 - bin.length)).map (fun i => fill i % 10)

/-- The number-generation part of `generateCardFromBin` (lines 43-91):
reject a BIN shorter than 6 digits, pad to the target length minus one,
append the Luhn check digit, then re-validate with `validateLuhn` and
fail when the re-validation fails.  The input `bin` is the digit list
after the non-digit strip. -/
def generateCardNumber (bin : List Nat) (fill : Nat → Nat) : Except String (List Nat) :=
  if bin.length < 6 then .error "BIN must be at least 6 digits"
  else
    let body := padBody bin fill (targetLengthFor bin)
    let card := body ++ [checkDigitFor body]
    if validateLuhn card then .ok card
    else .error "Generated card failed Luhn validation"

/-! ## Expiry generation

Embedding of the expiry part of `generateCardFromBin` (lines 93-114).
`rM` is `Math.floor(Math.random() * 12)` and `rY` is
`Math.floor(Math.random() * 5)`; the month string round-trips through
`String(...).padStart(2, "0")` and `parseInt`, so it is kept numeric.
`String(expYear).slice(-2)` is `% 100` (the generated year always has
at least two digits) and `parseInt("20" + yy)` is `2000 + yy`. -/
def generateExpiry (currentYear currentMonth rM rY : Nat) : Except String (Nat × Nat) :=
  let expMonth := rM + 1
  let expYear :=
    if currentYear + rY + 1 = currentYear ∧ expMonth ≤ currentMonth
    then currentYear + rY + 2 else currentYear + rY + 1
  if 2000 + expYear % 100 < currentYear ∨
      (2000 + expYear % 100 = currentYear ∧ expMonth < currentMonth)
  then .error "Generated expiration date is in the past"
  else .ok (expMonth, expYear % 100)

/-! ## Decline reason table

Embedding of `DeclineReasons` and `getDeclineReason` in
`src/gateways/stripe/checkout-based/response-handler.js` (lines 18-37).
The JS object literal is a finite association list; its keys are
pairwise distinct. -/

def declineReasonsTable : List (String × String) := [
  ("card_declined", "Card was declined by the issuer"),
  ("expired_card", "Card has expired"),
  ("incorrect_cvc", "Incorrect CVC provided"),
  ("processing_error", "Processing error occurred"),
  ("rate_limit", "Rate limit exceeded"),
  ("lost_card", "Card reported as lost"),
  ("stolen_card", "Card reported as stolen"),
  ("insufficient_funds", "Insufficient funds"),
  ("do_not_honor", "Card issuer declined the transaction"),
  ("generic_decline", "Card declined for unknown reason"),
  ("checkout_amount_mismatch", "Amount mismatch with checkout session"),
  ("invalid_account", "Invalid account"),
  ("invalid_amount", "Invalid amount"),
  ("invalid_currency", "Invalid currency")]

/-- The `getDeclineReason` function: table lookup with the generic
fallback for unknown codes. -/
def getDeclineReason (code : String) : String :=
  (declineReasonsTable.lookup code).getD "Unknown decline reason"

/-! ## Literal card parsing

Embedding of `parseCardString` in `payer.js` (lines 135-156). -/

structure CardFields where
  cardNumber : String
  expMonth : String
  expYear : String
  cvc : String
deriving Repr, DecidableEq

/-- JS `s.split("|")` for the one-character separator: the list of
bar-free groups; an empty input yields one empty group. -/
def splitBar : List Char → List (List Char)
  | [] => [[]]
  | c :: rest =>
    if c = '|' then [] :: splitBar rest
    else
      match splitBar rest with
      | [] => [[c]]
      | g :: gs => (c :: g) :: gs

/-- JS `String.prototype.trim`. -/
def trimList (l : List Char) : List Char :=
  ((l.dropWhile Char.isWhitespace).reverse.dropWhile Char.isWhitespace).reverse

/-- JS `String(...).padStart(2, "0")`. -/
def padStart2L (l : List Char) : List Char :=
  if l.length < 2 then List.replicate (2 - l.length) '0' ++ l else l

/-- Numeric value of a digit character list. -/
def digitsToNat (ds : List Char) : Nat :=
  ds.foldl (fun a c => a * 10 + (c.toNat - 48)) 0

/-- JS `parseInt` on an already trimmed string: an optional sign
followed by leading digits; `none` is `NaN`. -/
def parseIntL : List Char → Option Int
  | '-' :: rest =>
    let ds := rest.takeWhile Char.isDigit
    if ds = [] then none else some (-(digitsToNat ds : Int))
  | '+' :: rest =>
    let ds := rest.takeWhile Char.isDigit
    if ds = [] then none else some (digitsToNat ds)
  | l =>
    let ds := l.takeWhile Char.isDigit
    if ds = [] then none else some (digitsToNat ds)

/-- Month normalization of `parseCardString`: drop one leading zero
(`startsWith("0")` then `slice(1)`), re-parse with `parseInt`, render
and left-pad to two characters (`String(NaN)` is the three-character
string `NaN` and is left unpadded). -/
def normMonth (m : List Char) : String :=
  let m1 := match m with
    | '0' :: r => r
    | _ => m
  String.mk (padStart2L (match parseIntL m1 with
    | some n => (toString n).toList
    | none => "NaN".toList))

/-- Year normalization of `parseCardString`: widen a two-character year
with the prefix 20, then `slice(-2)` keeps the last two characters. -/
def normYear (y : List Char) : String :=
  let y2 := if y.length = 2 then '2' :: '0' :: y else y
  String.mk (y2.drop (y2.length - 2))

/-- The `parseCardString` function (payer.js lines 135-156): split on
the bar character, trim each field, fail when fewer than 4 fields
result (extra fields beyond the fourth are ignored by the JS
destructuring `let [a, b, c, d] = parts`), strip whitespace from the
number, and normalize the month and year fields. -/
def parseCardString (s : String) : Except String CardFields :=
  let parts := (splitBar s.toList).map trimList
  if parts.length < 4 then .error "Card format must be: number|month|year|cvv"
  else .ok {
    cardNumber := String.mk ((parts.getD 0 []).filter (fun c => !c.isWhitespace)),
    expMonth := normMonth (parts.getD 1 []),
    expYear := normYear (parts.getD 2 []),
    cvc := String.mk (parts.getD 3 []) }

/-! ## Checkout info and the expected amount

Embedding of the normalized `CheckoutInfo` shape produced by
`fetchCheckoutInfo` (`checkout-info`, `normalizeCheckoutResponse`) as
consumed by `attemptPayment`.  The normalizer yields `amount`,
`quantity`, `unitAmount` and `totals.total` as number-or-null, so these
fields are `Option Int` with `none` meaning `null`. -/

structure LineItem where
  amount : Option Int := none
  quantity : Option Int := none
  unitAmount : Option Int := none
deriving Repr, DecidableEq

structure Totals where
  total : Option Int := none
  subtotal : Option Int := none
deriving Repr, DecidableEq

structure CheckoutInfo where
  lineItems : List LineItem := []
  totals : Totals := {}
deriving Repr, DecidableEq

/-- Per-item amount of the reduce in `attemptPayment` (payer.js lines
281-284 and 348-351): `item.amount || (item.unitAmount * (item.quantity
|| 1))`, where a null factor coerces to 0. -/
def itemAmount (it : LineItem) : Int :=
  jsOrInt it.amount (jsNumOfNull it.unitAmount * jsOrInt it.quantity 1)

/-- Expected amount computation of `attemptPayment` (payer.js lines
278-288, repeated at 345-354): sum the line items when any exist,
otherwise fall back to `info.totals?.total || 0`. -/
def expectedAmountOf (info : CheckoutInfo) : Int :=
  if info.lineItems ≠ [] then
    info.lineItems.foldl (fun s it => s + itemAmount it) 0
  else jsOrInt info.totals.total 0

/-! ## Response shapes of the confirm flow

Field-level embedding of the JSON bodies `attemptPayment` inspects.
`next_action` is only ever tested for truthiness, so it is a `Bool`
recording its presence. -/

structure ErrorObj where
  code : Option String := none
  message : Option String := none
  etype : Option String := none
  declineCode : Option String := none
deriving Repr, DecidableEq

structure PaymentIntent where
  status : Option String := none
  next_action : Bool := false
  last_payment_error : Option ErrorObj := none
deriving Repr, DecidableEq

structure ConfirmBody where
  status : Option String := none
  payment_intent : Option PaymentIntent := none
  error : Option ErrorObj := none
deriving Repr, DecidableEq

structure PMBody where
  id : Option String := none
  error : Option ErrorObj := none
deriving Repr, DecidableEq

structure HttpResp (α : Type) where
  statusCode : Nat
  data : α
deriving Repr, DecidableEq

/-- JS `Object.assign(orig, retry)` on a parsed JSON body: a field of
`retry` that is present overwrites the field of `orig`; absent fields
of `retry` leave `orig` untouched (this is why the original `error`
object survives the merge when the retry body has no `error`). -/
def mergeBody (orig retry : ConfirmBody) : ConfirmBody :=
  { status := retry.status <|> orig.status,
    payment_intent := retry.payment_intent <|> orig.payment_intent,
    error := retry.error <|> orig.error }

/-- The `lastError` variable of the retry loop: either not yet set, an
error object, a whole confirm body (`confirmResponse.data.error ||
confirmResponse.data`), or the message of a caught exception. -/
inductive LastError where
  | noneYet
  | fromErr (e : ErrorObj)
  | fromBody (b : ConfirmBody)
  | fromMsg (m : String)
deriving Repr, DecidableEq

/-- Shape of the early `return` objects of the retry loop. -/
structure LoopReturn where
  success : Bool
  status : String
  error : Option ErrorObj := none
  requires3DS : Bool := false
deriving Repr, DecidableEq

/-- The `errorInfo` selection of the declined branch (payer.js line
386): `responseData.error || responseData.payment_intent.
last_payment_error || {}`.  The `none`/`none` case cannot be reached
under the declined guard (it would be a TypeError in JS) and is mapped
to the empty object. -/
def errorInfoOf (rd : ConfirmBody) : ErrorObj :=
  match rd.error with
  | some e => e
  | none =>
    match rd.payment_intent with
    | some pi => pi.last_payment_error.getD {}
    | none => {}

/-- Defaulting of the declined-branch error object (payer.js lines
392-397). -/
def normalizeDeclineError (e : ErrorObj) : ErrorObj :=
  { code := some (jsOrStr e.code "card_declined"),
    message := some (jsOrStr e.message "Card was declined"),
    etype := some (jsOrStr e.etype "card_error"),
    declineCode := some (jsOrStr e.declineCode "generic_decline") }

/-- Network environment of one loop iteration: the outcomes of the
create-payment-method call, the confirm call, and (when the
amount-mismatch recovery runs) the re-fetch and the corrective confirm.
`Except.error` models a thrown exception, which the loop body catches. -/
structure IterEnv where
  pm : Except String (HttpResp PMBody)
  confirm : Except String (HttpResp ConfirmBody)
  refetch : Except String CheckoutInfo
  retryConfirm : Except String (HttpResp ConfirmBody)

/-- Result of one iteration of the retry loop: either an early
`return` or a `continue` carrying the recorded `lastError`. -/
inductive IterOut where
  | ret (r : LoopReturn)
  | cont (e : LastError)
deriving Repr, DecidableEq

/-- The amount-mismatch recovery of the loop body (payer.js lines
339-371): when the confirm body carries the `checkout_amount_mismatch`
error code, re-fetch the checkout info, recompute the amount, and when
it differs and is positive issue one corrective confirm, merging its
body into the working body with `Object.assign`.  `Except.error` is a
thrown exception (caught by the iteration); the extra `Nat` counts the
corrective confirm calls. -/
def recoverStep (amount : Int) (env : IterEnv) (body : ConfirmBody) :
    Except String (ConfirmBody × Nat) :=
  match body.error with
  | some e =>
    if e.code = some "checkout_amount_mismatch" then
      match env.refetch with
      | .error m => .error m
      | .ok info2 =>
        if expectedAmountOf info2 ≠ amount ∧ 0 < expectedAmountOf info2 then
          match env.retryConfirm with
          | .error m => .error m
          | .ok rr => .ok (mergeBody body rr.data, 1)
        else .ok (body, 0)
    else .ok (body, 0)
  | none => .ok (body, 0)

/-- The classification tail of the loop body (payer.js lines 373-424)
on the possibly merged body `rd`: a decline signal (payment intent in
`requires_payment_method`, an error object, or a last payment error)
returns the declined result; otherwise HTTP 200 with a complete status
or a requires-action payment intent returns the approved result;
otherwise the iteration records `lastError` and continues.
`statusCode` is the status code of the first confirm response; `extra`
is the corrective confirm count of the recovery. -/
def classifyStep (statusCode : Nat) (rd : ConfirmBody) (extra : Nat) : IterOut × Nat :=
  let isComplete := rd.status == some "complete"
  let requires3DS := match rd.payment_intent with
    | some pi => (pi.status == some "requires_action") && pi.next_action
    | none => false
  let isDeclined := match rd.payment_intent with
    | some pi => pi.status == some "requires_payment_method"
    | none => false
  let hasError := rd.error.isSome || (match rd.payment_intent with
    | some pi => pi.last_payment_error.isSome
    | none => false)
  if isDeclined || hasError then
    (.ret { success := false, status := "declined",
            error := some (normalizeDeclineError (errorInfoOf rd)) }, 1 + extra)
  else if statusCode = 200 && (isComplete || requires3DS) then
    (.ret { success := true, status := "approved", requires3DS := requires3DS },
     1 + extra)
  else
    (.cont (match rd.error with
      | some e => .fromErr e
      | none => .fromBody rd), 1 + extra)

/-- One iteration of the `while` loop of `attemptPayment` (payer.js
lines 304-424): attempt the create call, bail out to the next retry on
its failure, attempt the confirm call, run the amount-mismatch
recovery, and classify.  The returned `Nat` counts the confirm calls
attempted in this iteration (1 or, with the corrective re-confirm, 2;
0 when the create call already failed).  Each iteration attempts
exactly one create-payment-method call. -/
def iterStep (amount : Int) (env : IterEnv) : IterOut × Nat :=
  match env.pm with
  | .error m => (.cont (.fromMsg m), 0)
  | .ok pmResp =>
    if pmResp.statusCode != 200 || jsStrFalsy pmResp.data.id then
      (.cont (match pmResp.data.error with
        | some e => .fromErr e
        | none => .fromErr { message := some "Failed to create payment method" }), 0)
    else
      match env.confirm with
      | .error m => (.cont (.fromMsg m), 1)
      | .ok confirmResp =>
        match recoverStep amount env confirmResp.data with
        | .error m => (.cont (.fromMsg m), 1)
        | .ok (rd, extra) => classifyStep confirmResp.statusCode rd extra

/-- Aggregate outcome of the loop: iteration count (`attempts` in JS),
create and confirm call counts, and either the early return or the
final `lastError`. -/
structure RunOut where
  attempts : Nat
  creates : Nat
  confirms : Nat
  result : LoopReturn ⊕ LastError

/-- The `while (attempts <= retries)` loop (payer.js lines 304-424),
driven by fuel `retries + 1`.  Each iteration increments `attempts` and
attempts exactly one create call, so `creates` grows by one per
iteration; `confirms` adds the per-iteration confirm count. -/
def runAttempts (amount : Int) (envs : Nat → IterEnv) :
    Nat → Nat → Nat → Nat → LastError → RunOut
  | 0, a, cr, cf, le => ⟨a, cr, cf, .inr le⟩
  | fuel + 1, a, cr, cf, _le =>
    match iterStep amount (envs a) with
    | (.ret r, c2) => ⟨a + 1, cr + 1, cf + c2, .inl r⟩
    | (.cont e, c2) => runAttempts amount envs fuel (a + 1) (cr + 1) (cf + c2) e

/-- Final outcome shape surfaced to callers, carrying the fields the
verification inspects. -/
structure AttemptOutcome where
  success : Bool
  attempts : Nat
  status : String
  errorCode : Option String := none
  requires3DS : Bool := false
deriving Repr, DecidableEq

/-- The fall-through formatting of `createDetailedResponse`
(response-handler.js lines 207-248; the enhanced variant used first is
not part of the sources, and `response-handler.js` is the declared
fallback with the same contract) applied to the loop result
`{success: false, attempts, error: lastError}`: `attempts || 0`, and a
present (truthy) error forces status `declined` with `errorCode =
error.code`. -/
def createDetailedResponse (attempts : Nat) (le : LastError) : AttemptOutcome :=
  let a := if attempts = 0 then 0 else attempts
  match le with
  | .noneYet => { success := false, attempts := a, status := "failed" }
  | .fromErr e => { success := false, attempts := a, status := "declined", errorCode := e.code }
  | .fromBody _ => { success := false, attempts := a, status := "declined" }
  | .fromMsg _ => { success := false, attempts := a, status := "declined" }

/-- The retry loop of `attemptPayment` with its call counters. -/
def attemptRun (info : CheckoutInfo) (envs : Nat → IterEnv) (retries : Nat) : RunOut :=
  runAttempts (expectedAmountOf info) envs (retries + 1) 0 0 0 .noneYet

/-- The `attemptPayment` function (payer.js lines 264-434) after the
session has been resolved: run the retry loop over the expected amount
of `info`; an early return surfaces directly, the fall-through goes
through `createDetailedResponse`. -/
def attemptPayment (info : CheckoutInfo) (envs : Nat → IterEnv) (retries : Nat) :
    AttemptOutcome :=
  match attemptRun info envs retries with
  | ⟨a, _, _, .inl r⟩ =>
    { success := r.success, attempts := a, status := r.status,
      errorCode := r.error.bind ErrorObj.code, requires3DS := r.requires3DS }
  | ⟨a, _, _, .inr le⟩ => createDetailedResponse a le

/-! ## Checkout URL parsing

Embedding of `parseCheckoutUrl` (`checkout-info`, the second file of
`src/unnamed/part_002`, lines 409-456).  Strings are `List Char`;
regex first-match searches are explicit scans. -/

/-- One character of the class `[A-Za-z0-9]` (ASCII, as in the JS
regexes). -/
def isTokenChar (c : Char) : Bool := c.isAlpha || c.isDigit

/-- Greedy match of `pfx` followed by one or more token characters at
the head of `s`; yields the matched text. -/
def pfxMatchAt (pfx : List Char) (s : List Char) : Option (List Char) :=
  if s.take pfx.length = pfx then
    let body := (s.drop pfx.length).takeWhile isTokenChar
    if body = [] then none else some (pfx ++ body)
  else none

/-- Match of `p1_(live|test)_[A-Za-z0-9]+`-style alternation at the
head of `s`: try the first full prefix, then the second. -/
def tokenMatchAt (p1 p2 : List Char) (s : List Char) : Option (List Char) :=
  pfxMatchAt p1 s <|> pfxMatchAt p2 s

/-- Leftmost match of the token pattern anywhere in `s`, as
`String.prototype.match` returns for a non-global regex. -/
def firstTokenMatch (p1 p2 : List Char) : List Char → Option (List Char)
  | [] => none
  | c :: rest => tokenMatchAt p1 p2 (c :: rest) <|> firstTokenMatch p1 p2 rest

def csLivePfx : List Char := "cs_live_".toList
def csTestPfx : List Char := "cs_test_".toList
def pkLivePfx : List Char := "pk_live_".toList
def pkTestPfx : List Char := "pk_test_".toList

/-- One character of the class `[^\s"']` used by the site regex. -/
def isSiteChar (c : Char) : Bool :=
  !(c.isWhitespace || c = Char.ofNat 34 || c = Char.ofNat 39)

/-- Greedy match of the scheme `p` followed by one or more site
characters at the head of `s`. -/
def sitePfxMatch (p s : List Char) : Option (List Char) :=
  let body := (s.drop p.length).takeWhile isSiteChar
  if body = [] then none else some (p ++ body)

/-- Match of `https?:\/\/[^\s"']+` at the head of `s` (the optional
`s` is greedy, as in the regex). -/
def siteMatchAt (s : List Char) : Option (List Char) :=
  if s.take 8 = "https://".toList then sitePfxMatch ("https://".toList) s
  else if s.take 7 = "http://".toList then sitePfxMatch ("http://".toList) s
  else none

/-- Leftmost site match anywhere in `s`. -/
def firstSiteMatch : List Char → Option (List Char)
  | [] => none
  | c :: rest => siteMatchAt (c :: rest) <|> firstSiteMatch rest

/-- Hexadecimal digit value. -/
def hexVal (c : Char) : Option Nat :=
  if c.isDigit then some (c.toNat - 48)
  else if 'A' ≤ c ∧ c ≤ 'F' then some (c.toNat - 65 + 10)
  else if 'a' ≤ c ∧ c ≤ 'f' then some (c.toNat - 97 + 10)
  else none

/-- JS `decodeURIComponent`, restricted to single-byte (ASCII) percent
escapes: `%XY` with hex digits and value below 128 decodes to that
character; a malformed escape is a thrown `URIError` (`none`).
Multi-byte UTF-8 escapes are outside this embedding and are mapped to
`none` as well; the claims proved here only involve inputs without
high-byte escapes. -/
def percentDecode : List Char → Option (List Char)
  | [] => some []
  | c :: rest =>
    if c = '%' then
      match rest with
      | c1 :: c2 :: rest2 =>
        (match hexVal c1, hexVal c2 with
         | some h1, some h2 =>
           if h1 * 16 + h2 < 128 then
             (percentDecode rest2).map (fun r => Char.ofNat (h1 * 16 + h2) :: r)
           else none
         | _, _ => none)
      | _ => none
    else (percentDecode rest).map (fun r => c :: r)

/-- The standard base64 alphabet. -/
def b64Alphabet : List Char :=
  "ABCDEFGHIJKLMNOPQRSTUVWXYZabcdefghijklmnopqrstuvwxyz0123456789+/".toList

/-- Character of a 6-bit value. -/
def b64Enc (v : Nat) : Char := b64Alphabet.getD (v % 64) 'A'

/-- 6-bit value of an alphabet character (`indexOf`). -/
def b64Dec (c : Char) : Nat := b64Alphabet.indexOf c

/-- Base64 decoding of well-formed input in four-character groups with
optional `=` padding, as `Buffer.from(s, "base64")` behaves on the
output of an encoder. -/
def b64decode : List Char → List Nat
  | c1 :: c2 :: c3 :: c4 :: rest =>
    let v1 := b64Dec c1
    let v2 := b64Dec c2
    if c3 = '=' then [v1 * 4 + v2 / 16]
    else
      let v3 := b64Dec c3
      if c4 = '=' then [v1 * 4 + v2 / 16, v2 % 16 * 16 + v3 / 4]
      else (v1 * 4 + v2 / 16) :: (v2 % 16 * 16 + v3 / 4) ::
        (v3 % 4 * 64 + b64Dec c4) :: b64decode rest
  | _ => []

/-- Base64 encoding of a byte list (the inverse construction the spec
describes for building obfuscated URLs). -/
def b64encode : List Nat → List Char
  | [] => []
  | [b1] => [b64Enc (b1 / 4), b64Enc (b1 % 4 * 16), '=', '=']
  | [b1, b2] => [b64Enc (b1 / 4), b64Enc (b1 % 4 * 16 + b2 / 16), b64Enc (b2 % 16 * 4), '=']
  | b1 :: b2 :: b3 :: rest =>
    b64Enc (b1 / 4) :: b64Enc (b1 % 4 * 16 + b2 / 16) :: b64Enc (b2 % 16 * 4 + b3 / 64) ::
      b64Enc (b3 % 64) :: b64encode rest

/-- The fixed single-byte obfuscation key (`XOR_KEY = 5`). -/
def xorKey : Nat := 5

structure ParsedCheckout where
  sessionId : Option (List Char)
  publicKey : Option (List Char)
  site : Option (List Char)
deriving Repr, DecidableEq

/-- The `parseCheckoutUrl` function: reject a falsy input; URL-decode
once, keeping the raw input when decoding throws; extract the session
id by regex anywhere in the decoded string; when a `#` fragment
exists, URL-decode it (a throw leaves both remaining fields null),
base64-decode it, XOR every byte with the key, and extract the public
key and site hint from the resulting payload string. -/
def parseCheckoutUrl (url : List Char) : ParsedCheckout :=
  if url = [] then ⟨none, none, none⟩
  else
    let u := (percentDecode url).getD url
    let sessionId := firstTokenMatch csLivePfx csTestPfx u
    match u.findIdx? (fun c => c = '#') with
    | none => ⟨sessionId, none, none⟩
    | some i =>
      let fragment := u.drop (i + 1)
      match percentDecode fragment with
      | none => ⟨sessionId, none, none⟩
      | some df =>
        let payload := (b64decode df).map (fun b => Char.ofNat (b ^^^ xorKey))
        ⟨sessionId, firstTokenMatch pkLivePfx pkTestPfx payload, firstSiteMatch payload⟩

/-- Shape of a well-formed extracted token: one of the two eight
character prefixes followed by a nonempty run of token characters.
This is the spec-side contract of the parse fields. -/
def isTokenShape (p1 p2 t : List Char) : Bool :=
  (t.take 8 == p1 || t.take 8 == p2) && (t.drop 8 != []) && (t.drop 8).all isTokenChar

/-- Shape of a well-formed extracted site hint. -/
def isSiteShape (t : List Char) : Bool :=
  ((t.take 8 == "https://".toList && (t.drop 8 != []) && (t.drop 8).all isSiteChar) ||
   (t.take 7 == "http://".toList && (t.drop 7 != []) && (t.drop 7).all isSiteChar))

/-! ## Concrete instances used by the claims -/

/-- CheckoutInfo of the amount-reconciliation scenario: line items 500
and 700, no explicit total. -/
def exInfo0 : CheckoutInfo :=
  { lineItems := [{ amount := some 500 }, { amount := some 700 }] }

/-- Re-fetched CheckoutInfo whose recomputed amount (1500) differs
from 1200. -/
def exInfoRe : CheckoutInfo := { lineItems := [{ amount := some 1500 }] }

/-- Iteration environment of the C3 scenario: payment method created,
first confirm reports `checkout_amount_mismatch`, the re-fetch yields
a different positive amount, and the corrective confirm returns HTTP
200 with a `complete` body carrying no error object. -/
def exEnvC3 : IterEnv :=
  { pm := .ok ⟨200, { id := some "pm_1" }⟩,
    confirm := .ok ⟨402, { error := some { code := some "checkout_amount_mismatch",
                                           message := some "amount changed" } }⟩,
    refetch := .ok exInfoRe,
    retryConfirm := .ok ⟨200, { status := some "complete" }⟩ }

/-- First iteration environment of the C4 counterexample: the confirm
response carries an error object (the amount-mismatch code), and the
recovery re-fetch throws. -/
def exEnvC4a : IterEnv :=
  { pm := .ok ⟨200, { id := some "pm_1" }⟩,
    confirm := .ok ⟨402, { error := some { code := some "checkout_amount_mismatch" } }⟩,
    refetch := .error "socket hang up",
    retryConfirm := .ok ⟨200, { status := some "complete" }⟩ }

/-- Second iteration environment of the C4 counterexample: an ordinary
declined confirm response. -/
def exEnvC4b : IterEnv :=
  { pm := .ok ⟨200, { id := some "pm_2" }⟩,
    confirm := .ok ⟨402, { error := some { code := some "card_declined" } }⟩,
    refetch := .error "unused",
    retryConfirm := .error "unused" }

def exEnvsC4 : Nat → IterEnv := fun n => if n = 0 then exEnvC4a else exEnvC4b

/-- Base part of the C6 witness URL. -/
def exC6base : List Char := "https://pay.example.com/c/pay/cs_test_a1b2".toList

/-- Payload bytes of the C6 witness (the char codes of a payload
string containing a public key token). -/
def exC6payload : List Nat := "pk_test_k9z".toList.map Char.toNat

/-! # Theorems -/

/-! ## Generic helper lemmas -/

theorem lookup_eq_none_of_not_mem_keys (c : String) (l : List (String × String))
    (h : c ∉ l.map Prod.fst) : l.lookup c = none := by
  induction l with
  | nil => rfl
  | cons p t ih =>
    simp only [List.map_cons, List.mem_cons, not_or] at h
    obtain ⟨h1, h2⟩ := h
    have hb : (c == p.1) = false := by simpa [beq_iff_eq] using h1
    simp [List.lookup, hb, ih h2]

theorem luhnSumRev_cons_false (c : Nat) (ds : List Nat) :
    luhnSumRev (c :: ds) false = c + luhnSumRev ds true := by
  simp [luhnSumRev]

theorem validateLuhn_body_check (body : List Nat) :
    validateLuhn (body ++ [checkDigitFor body]) = true := by
  unfold validateLuhn checkDigitFor
  rw [List.reverse_append]
  simp only [List.reverse_singleton, List.singleton_append, luhnSumRev_cons_false]
  have h : ((10 - luhnSumRev body.reverse true % 10) % 10 +
      luhnSumRev body.reverse true) % 10 = 0 := by omega
  simp [h]

theorem foldl_add_itemAmount (l : List LineItem) (c : Int) :
    l.foldl (fun s it => s + itemAmount it) c = c + (l.map itemAmount).sum := by
  induction l generalizing c with
  | nil => simp
  | cons it t ih =>
    simp only [List.foldl_cons, List.map_cons, List.sum_cons, ih]
    ring

/-! ## C5: Luhn invariant of generated cards -/

/-- C5: for every BIN of at least 6 digits and every random digit
stream, `generateCardFromBin` produces a card number that satisfies
the Luhn checksum, so the internal re-validation failure branch is
never taken. -/
theorem c5_generated_card_luhn (bin : List Nat) (fill : Nat → Nat) (h : 6 ≤ bin.length) :
    ∃ card, generateCardNumber bin fill = .ok card ∧ validateLuhn card = true := by
  have h6 : ¬ bin.length < 6 := by omega
  have hv := validateLuhn_body_check (padBody bin fill (targetLengthFor bin))
  refine ⟨_, ?_, hv⟩
  simp only [generateCardNumber, if_neg h6, hv, if_true]

/-- Witness for C5 at the BIN 424242 with a constant digit stream. -/
theorem c5_witness :
    6 ≤ ("424242".toList.map (fun c => c.toNat - 48)).length ∧
    ∃ card, generateCardNumber ("424242".toList.map (fun c => c.toNat - 48))
        (fun _ => 7) = .ok card ∧ validateLuhn card = true :=
  ⟨by decide, c5_generated_card_luhn _ _ (by decide)⟩

/-! ## C10: generated expiry bounds -/

/-- C10: every generated expiry has a full year between
`currentYear + 1` and `currentYear + 5`, hence strictly in the future
whatever the month; the same-year month correction and the
date-in-the-past error branch are both unreachable.  The hypotheses
record the ranges of the two random draws and that the current year is
in the range where `parseInt("20" + String(y).slice(-2))` is the
identity. -/
theorem c10_expiry_future (cy cm rM rY : Nat) (_h1 : rM < 12) (h2 : rY < 5)
    (h3 : 2000 ≤ cy) (h4 : cy ≤ 2094) :
    generateExpiry cy cm rM rY = .ok (rM + 1, (cy + rY + 1) % 100) ∧
    cy + 1 ≤ 2000 + (cy + rY + 1) % 100 ∧
    2000 + (cy + rY + 1) % 100 ≤ cy + 5 ∧
    ¬(cy + rY + 1 = cy ∧ rM + 1 ≤ cm) := by
  have hne : ¬(cy + rY + 1 = cy ∧ rM + 1 ≤ cm) := by omega
  refine ⟨?_, by omega, by omega, hne⟩
  simp only [generateExpiry, if_neg hne]
  have hcond : ¬(2000 + (cy + rY + 1) % 100 < cy ∨
      (2000 + (cy + rY + 1) % 100 = cy ∧ rM + 1 < cm)) := by omega
  simp only [if_neg hcond]

/-- Witness for C10 at a concrete date and draw. -/
theorem c10_witness :
    (4 < 12 ∧ 3 < 5 ∧ 2000 ≤ 2026 ∧ 2026 ≤ 2094) ∧
    generateExpiry 2026 11 4 3 = .ok (4 + 1, (2026 + 3 + 1) % 100) ∧
    2026 + 1 ≤ 2000 + (2026 + 3 + 1) % 100 ∧
    2000 + (2026 + 3 + 1) % 100 ≤ 2026 + 5 ∧
    ¬(2026 + 3 + 1 = 2026 ∧ 4 + 1 ≤ 11) :=
  ⟨by decide, c10_expiry_future 2026 11 4 3 (by decide) (by decide) (by decide) (by decide)⟩

/-! ## C9: decline reason mapping -/

/-- C9 counterexample: the codes `fraudulent` and `pickup_card` are
not in the table and map to the generic fallback, not to dedicated
strings, refuting the claim that every code of the listed vocabulary
has a dedicated message. -/
theorem c9_counterexample :
    getDeclineReason "fraudulent" = "Unknown decline reason" ∧
    getDeclineReason "pickup_card" = "Unknown decline reason" := by
  exact ⟨rfl, rfl⟩

/-- C9 (amended): the table maps each of its 14 codes (which include
`card_declined`, `insufficient_funds`, `expired_card`, `incorrect_cvc`
but not `fraudulent` or `pickup_card`) to its own dedicated message,
`card_declined` to the quoted string, every code outside the table to
the single generic fallback, and the dedicated messages are pairwise
distinct and distinct from the fallback. -/
theorem c9_decline_reason_table :
    (∀ p, p ∈ declineReasonsTable → getDeclineReason p.1 = p.2) ∧
    getDeclineReason "card_declined" = "Card was declined by the issuer" ∧
    (∀ c, c ∉ declineReasonsTable.map Prod.fst →
      getDeclineReason c = "Unknown decline reason") ∧
    List.Pairwise (fun p q => p.2 ≠ q.2) declineReasonsTable ∧
    (∀ p ∈ declineReasonsTable, p.2 ≠ "Unknown decline reason") := by
  refine ⟨?_, rfl, ?_, by decide, by decide⟩
  · intro p hp
    fin_cases hp <;> rfl
  · intro c hc
    unfold getDeclineReason
    rw [lookup_eq_none_of_not_mem_keys c _ hc]
    rfl

/-- Witness for C9 at the `expired_card` table entry. -/
theorem c9_witness :
    ("expired_card", "Card has expired") ∈ declineReasonsTable ∧
    getDeclineReason "expired_card" = "Card has expired" :=
  ⟨by decide, c9_decline_reason_table.1 ("expired_card", "Card has expired") (by decide)⟩

/-! ## C8: literal card parsing -/

/-- C8 counterexample: an input with 5 bar-delimited fields does not
split into exactly 4 fields, yet `parseCardString` succeeds (the code
only rejects fewer than 4 fields), refuting the claimed equivalence. -/
theorem c8_counterexample :
    (splitBar ("4242424242424242|5|2030|1234|extra".toList)).length = 5 ∧
    parseCardString "4242424242424242|5|2030|1234|extra" =
      .ok { cardNumber := "4242424242424242", expMonth := "05",
            expYear := "30", cvc := "1234" } := by
  exact ⟨by decide, by decide⟩

/-- C8 (amended): `parseCardString` fails with the invalid-card-format
error exactly when the input splits into fewer than 4 bar-delimited
fields (extra fields are accepted and ignored); on success the month
is zero-padded to 2 digits and the year reduced to its last 2 digits,
so the quoted example yields month 05 and year 30. -/
theorem c8_literal_parse :
    (∀ s : String, (∃ m, parseCardString s = .error m) ↔
      (splitBar s.toList).length < 4) ∧
    parseCardString "4242424242424242|5|2030|1234" =
      .ok { cardNumber := "4242424242424242", expMonth := "05",
            expYear := "30", cvc := "1234" } := by
  refine ⟨?_, by decide⟩
  intro s
  simp only [parseCardString, List.length_map]
  split
  next h => exact iff_of_true ⟨_, rfl⟩ h
  next h => exact iff_of_false (by simp) h

/-- Witness for C8 (amended) at an input with a single field. -/
theorem c8_witness :
    (splitBar ("4242".toList)).length < 4 ∧ ∃ m, parseCardString "4242" = .error m :=
  ⟨by decide, (c8_literal_parse.1 "4242").mpr (by decide)⟩

/-! ## C2: expected amount reconciliation -/

/-- C2: the expected amount equals the sum of the line-item amounts
when line items are present (each carrying a nonzero amount, the shape
the invariant describes), equals `totals.total` (or 0 when absent)
when there are none, and is 1200 on the quoted two-item example. -/
theorem c2_expected_amount :
    (∀ info : CheckoutInfo, info.lineItems ≠ [] →
      (∀ it ∈ info.lineItems, it.amount.isSome = true ∧ it.amount.getD 0 ≠ 0) →
      expectedAmountOf info = (info.lineItems.map (fun it => it.amount.getD 0)).sum) ∧
    (∀ info : CheckoutInfo, info.lineItems = [] →
      (info.totals.total = none → expectedAmountOf info = 0) ∧
      (∀ t, info.totals.total = some t → expectedAmountOf info = t)) ∧
    expectedAmountOf exInfo0 = 1200 := by
  refine ⟨?_, ?_, by decide⟩
  · intro info hne hall
    have hitem : ∀ it ∈ info.lineItems, itemAmount it = it.amount.getD 0 := by
      intro it hit
      obtain ⟨hs, hz⟩ := hall it hit
      rcases ha : it.amount with _ | a
      · rw [ha] at hs; cases hs
      · rw [ha] at hz
        simp only [Option.getD_some] at hz ⊢
        simp [itemAmount, jsOrInt, ha, hz]
    rw [expectedAmountOf, if_pos hne, foldl_add_itemAmount, zero_add,
      List.map_congr_left hitem]
  · intro info he
    constructor
    · intro ht
      rw [expectedAmountOf, if_neg (by simp [he]), ht]
      rfl
    · intro t ht
      rw [expectedAmountOf, if_neg (by simp [he]), ht]
      rcases eq_or_ne t 0 with rfl | hz
      · rfl
      · simp [jsOrInt, hz]

/-- Witness for C2 at the quoted two-item example. -/
theorem c2_witness :
    exInfo0.lineItems ≠ [] ∧
    expectedAmountOf exInfo0 = (exInfo0.lineItems.map (fun it => it.amount.getD 0)).sum :=
  ⟨by decide, c2_expected_amount.1 exInfo0 (by decide) (by decide)⟩

/-! ## C1: retry bound -/

theorem runAttempts_bounds (amount : Int) (envs : Nat → IterEnv) :
    ∀ fuel a cr cf le,
      (runAttempts amount envs fuel a cr cf le).attempts ≤ a + fuel ∧
      (runAttempts amount envs fuel a cr cf le).creates ≤ cr + fuel ∧
      a ≤ (runAttempts amount envs fuel a cr cf le).attempts ∧
      (1 ≤ fuel → a < (runAttempts amount envs fuel a cr cf le).attempts) ∧
      (runAttempts amount envs fuel a cr cf le).attempts + cr =
        (runAttempts amount envs fuel a cr cf le).creates + a := by
  intro fuel
  induction fuel with
  | zero =>
    intro a cr cf le
    simp only [runAttempts]
    exact ⟨by omega, by omega, by omega, by omega, by omega⟩
  | succ n ih =>
    intro a cr cf le
    rcases h : iterStep amount (envs a) with ⟨out, c2⟩
    cases out with
    | ret r =>
      simp only [runAttempts, h]
      exact ⟨by omega, by omega, by omega, fun _ => by omega, by omega⟩
    | cont e =>
      obtain ⟨i1, i2, i3, _i4, i5⟩ := ih (a + 1) (cr + 1) (cf + c2) e
      simp only [runAttempts, h]
      exact ⟨by omega, by omega, by omega, fun _ => by omega, by omega⟩

theorem createDetailedResponse_attempts (a : Nat) (le : LastError) :
    (createDetailedResponse a le).attempts = a := by
  cases le <;> simp only [createDetailedResponse] <;> split <;> omega

theorem attemptPayment_attempts_eq (info : CheckoutInfo) (envs : Nat → IterEnv)
    (retries : Nat) :
    (attemptPayment info envs retries).attempts = (attemptRun info envs retries).attempts := by
  unfold attemptPayment
  rcases h : attemptRun info envs retries with ⟨a, cr, cf, res⟩
  rcases res with r | le
  · rfl
  · exact createDetailedResponse_attempts a le

/-- C1: for every session information, card-or-factory environment and
retry count `N`, the loop performs at most `N + 1` create+confirm
cycles (the count of create calls, one per cycle, is at most `N + 1`
and equals the iteration count), and the `attempts` field of the
returned result is between 1 and `N + 1`. -/
theorem c1_retry_bound (info : CheckoutInfo) (envs : Nat → IterEnv) (retries : Nat) :
    1 ≤ (attemptPayment info envs retries).attempts ∧
    (attemptPayment info envs retries).attempts ≤ retries + 1 ∧
    (attemptRun info envs retries).creates ≤ retries + 1 ∧
    (attemptPayment info envs retries).attempts = (attemptRun info envs retries).creates := by
  obtain ⟨b1, b2, _b3, b4, b5⟩ :=
    runAttempts_bounds (expectedAmountOf info) envs (retries + 1) 0 0 0 .noneYet
  have heq := attemptPayment_attempts_eq info envs retries
  have hrun : attemptRun info envs retries =
      runAttempts (expectedAmountOf info) envs (retries + 1) 0 0 0 .noneYet := rfl
  rw [hrun] at heq
  refine ⟨?_, ?_, ?_, ?_⟩
  · rw [heq]; exact b4 (by omega)
  · rw [heq]; omega
  · rw [hrun]; omega
  · rw [heq, hrun]; omega

/-! ## Stage lemmas for the loop body -/

theorem recoverStep_of_error_none (amount : Int) (env : IterEnv) (body : ConfirmBody)
    (h : body.error = none) : recoverStep amount env body = .ok (body, 0) := by
  unfold recoverStep
  simp only [h]

theorem recoverStep_of_not_mismatch (amount : Int) (env : IterEnv) (body : ConfirmBody)
    (e : ErrorObj) (h : body.error = some e)
    (hc : ¬ e.code = some "checkout_amount_mismatch") :
    recoverStep amount env body = .ok (body, 0) := by
  unfold recoverStep
  simp only [h]
  rw [if_neg hc]

theorem recoverStep_mismatch_retry (amount : Int) (env : IterEnv) (body : ConfirmBody)
    (e : ErrorObj) (info2 : CheckoutInfo) (rr : HttpResp ConfirmBody)
    (h : body.error = some e) (hc : e.code = some "checkout_amount_mismatch")
    (h7 : env.refetch = .ok info2)
    (hcond : expectedAmountOf info2 ≠ amount ∧ 0 < expectedAmountOf info2)
    (h10 : env.retryConfirm = .ok rr) :
    recoverStep amount env body = .ok (mergeBody body rr.data, 1) := by
  unfold recoverStep
  simp only [h]
  rw [if_pos hc]
  simp only [h7]
  rw [if_pos hcond]
  simp only [h10]

theorem recoverStep_mismatch_stale (amount : Int) (env : IterEnv) (body : ConfirmBody)
    (e : ErrorObj) (info2 : CheckoutInfo)
    (h : body.error = some e) (hc : e.code = some "checkout_amount_mismatch")
    (h7 : env.refetch = .ok info2)
    (hcond : ¬(expectedAmountOf info2 ≠ amount ∧ 0 < expectedAmountOf info2)) :
    recoverStep amount env body = .ok (body, 0) := by
  unfold recoverStep
  simp only [h]
  rw [if_pos hc]
  simp only [h7]
  rw [if_neg hcond]

theorem classifyStep_declined (sc : Nat) (rd : ConfirmBody) (extra : Nat)
    (h : rd.error.isSome = true ∨ ∃ pi, rd.payment_intent = some pi ∧
      (pi.status = some "requires_payment_method" ∨ pi.last_payment_error.isSome = true)) :
    classifyStep sc rd extra =
      (.ret { success := false, status := "declined",
              error := some (normalizeDeclineError (errorInfoOf rd)) }, 1 + extra) := by
  unfold classifyStep
  rcases h with hse | ⟨pi, hpi, hst | hl⟩
  · simp [hse]
  · simp [hpi, hst]
  · simp [hpi, hl]

theorem iterStep_eq_classify (amount : Int) (env : IterEnv)
    (pmR : HttpResp PMBody) (cR : HttpResp ConfirmBody) (rd : ConfirmBody) (extra : Nat)
    (h1 : env.pm = .ok pmR) (h2 : pmR.statusCode = 200)
    (h3 : jsStrFalsy pmR.data.id = false) (h4 : env.confirm = .ok cR)
    (hrec : recoverStep amount env cR.data = .ok (rd, extra)) :
    iterStep amount env = classifyStep cR.statusCode rd extra := by
  unfold iterStep
  simp only [h1, h2, h3, h4, hrec, bne_self_eq_false, Bool.false_or, Bool.or_self,
    Bool.false_eq_true, if_false]

/-! ## C3: amount-mismatch recovery outcome -/

/-- C3 counterexample: in the exact scenario of the claim (first
confirm reports `checkout_amount_mismatch`, the re-fetch yields the
different positive amount 1500, the corrective re-confirm returns HTTP
200 with a `complete` body and no error object), `attemptPayment`
returns `success = false` with status `declined` — not the approved
outcome the claim states — because the `Object.assign` merge keeps the
original error object. -/
theorem c3_counterexample :
    (attemptPayment exInfo0 (fun _ => exEnvC3) 0).success = false ∧
    (attemptPayment exInfo0 (fun _ => exEnvC3) 0).status = "declined" ∧
    (attemptPayment exInfo0 (fun _ => exEnvC3) 0).errorCode =
      some "checkout_amount_mismatch" := by
  exact ⟨by decide, by decide, by decide⟩

/-- C3 (amended): under the hypotheses of the claim, `attemptPayment`
terminates immediately after the first iteration, but with the
declined outcome (`success = false`, status `declined`, the original
mismatch code as error code): the merge of the corrective confirm
response preserves the original error object, and any present error
forces the declined branch before the approval check. -/
theorem c3_amended (info : CheckoutInfo) (envs : Nat → IterEnv) (retries : Nat)
    (pmR : HttpResp PMBody) (cR : HttpResp ConfirmBody) (e : ErrorObj)
    (info2 : CheckoutInfo) (rR : HttpResp ConfirmBody)
    (h1 : (envs 0).pm = .ok pmR) (h2 : pmR.statusCode = 200)
    (h3 : jsStrFalsy pmR.data.id = false)
    (h4 : (envs 0).confirm = .ok cR) (h5 : cR.data.error = some e)
    (h6 : e.code = some "checkout_amount_mismatch")
    (h7 : (envs 0).refetch = .ok info2)
    (h8 : expectedAmountOf info2 ≠ expectedAmountOf info)
    (h9 : 0 < expectedAmountOf info2)
    (h10 : (envs 0).retryConfirm = .ok rR)
    (_h11 : rR.statusCode = 200) (_h12 : rR.data.status = some "complete")
    (h13 : rR.data.error = none) :
    (attemptPayment info envs retries).success = false ∧
    (attemptPayment info envs retries).status = "declined" ∧
    (attemptPayment info envs retries).attempts = 1 ∧
    (attemptPayment info envs retries).errorCode = some "checkout_amount_mismatch" := by
  have hme : (mergeBody cR.data rR.data).error = some e := by
    simp [mergeBody, h13, h5]
  have heinfo : errorInfoOf (mergeBody cR.data rR.data) = e := by
    simp [errorInfoOf, hme]
  have hrec := recoverStep_mismatch_retry (expectedAmountOf info) (envs 0) cR.data e
    info2 rR h5 h6 h7 ⟨h8, h9⟩ h10
  have hstep : iterStep (expectedAmountOf info) (envs 0) =
      (.ret { success := false, status := "declined",
              error := some (normalizeDeclineError e) }, 2) := by
    rw [iterStep_eq_classify (expectedAmountOf info) (envs 0) pmR cR _ _ h1 h2 h3 h4 hrec]
    rw [classifyStep_declined _ _ _ (Or.inl (by rw [hme]; rfl))]
    rw [heinfo]
  have hrun : attemptRun info envs retries =
      ⟨1, 1, 2, .inl { success := false, status := "declined",
                       error := some (normalizeDeclineError e) }⟩ := by
    unfold attemptRun
    simp only [runAttempts, hstep]
  have hp : attemptPayment info envs retries =
      { success := false, attempts := 1, status := "declined",
        errorCode := some (jsOrStr e.code "card_declined"), requires3DS := false } := by
    unfold attemptPayment
    rw [hrun]
    rfl
  rw [hp]

  refine ⟨rfl, rfl, rfl, ?_⟩
  simp [jsOrStr, h6]

/-- Witness for C3 (amended) at the concrete scenario. -/
theorem c3_witness :
    (attemptPayment exInfo0 (fun _ => exEnvC3) 3).success = false ∧
    (attemptPayment exInfo0 (fun _ => exEnvC3) 3).status = "declined" ∧
    (attemptPayment exInfo0 (fun _ => exEnvC3) 3).attempts = 1 ∧
    (attemptPayment exInfo0 (fun _ => exEnvC3) 3).errorCode =
      some "checkout_amount_mismatch" :=
  c3_amended exInfo0 (fun _ => exEnvC3) 3
    ⟨200, { id := some "pm_1" }⟩
    ⟨402, { error := some { code := some "checkout_amount_mismatch",
                            message := some "amount changed" } }⟩
    { code := some "checkout_amount_mismatch", message := some "amount changed" }
    exInfoRe ⟨200, { status := some "complete" }⟩
    (by decide) (by decide) (by decide) (by decide) (by decide) (by decide)
    (by decide) (by decide) (by decide) (by decide) (by decide) (by decide) (by decide)

/-! ## C4: immediate termination on decline signals -/

/-- C4 counterexample: the first confirm response carries an error
object (code `checkout_amount_mismatch`), but the recovery re-fetch
throws; the caught exception is recorded as `lastError` and the loop
continues, so with one retry remaining a second create+confirm cycle
is performed (`creates = 2`, final `attempts = 2`) instead of the
immediate return the claim states. -/
theorem c4_counterexample :
    (exEnvsC4 0).confirm =
      .ok ⟨402, { error := some { code := some "checkout_amount_mismatch" } }⟩ ∧
    (attemptRun exInfo0 exEnvsC4 1).creates = 2 ∧
    (attemptPayment exInfo0 exEnvsC4 1).attempts = 2 := by
  exact ⟨by decide, by decide, by decide⟩

theorem iterStep_declines (amount : Int) (env : IterEnv)
    (pmR : HttpResp PMBody) (cR : HttpResp ConfirmBody)
    (h1 : env.pm = .ok pmR) (h2 : pmR.statusCode = 200)
    (h3 : jsStrFalsy pmR.data.id = false)
    (h4 : env.confirm = .ok cR)
    (hsig : (∃ pi, cR.data.payment_intent = some pi ∧
        (pi.status = some "requires_payment_method" ∨
         pi.last_payment_error.isSome = true)) ∨
      cR.data.error.isSome = true)
    (hsafe : ∀ e, cR.data.error = some e →
      e.code = some "checkout_amount_mismatch" →
      ∃ info2, env.refetch = .ok info2 ∧
        (expectedAmountOf info2 ≠ amount ∧ 0 < expectedAmountOf info2 →
          ∃ rr, env.retryConfirm = .ok rr)) :
    ∃ er c2, iterStep amount env =
      (.ret { success := false, status := "declined", error := er }, c2) := by
  rcases he : cR.data.error with _ | e
  · rcases hsig with ⟨pi, hpi, hdis⟩ | habs
    · have hrec := recoverStep_of_error_none amount env cR.data he
      refine ⟨some (normalizeDeclineError (errorInfoOf cR.data)), 1 + 0, ?_⟩
      rw [iterStep_eq_classify amount env pmR cR _ _ h1 h2 h3 h4 hrec]
      rw [classifyStep_declined _ _ _ (Or.inr ⟨pi, hpi, hdis⟩)]
    · rw [he] at habs
      simp at habs
  · by_cases hc : e.code = some "checkout_amount_mismatch"
    · obtain ⟨info2, hre, hrr⟩ := hsafe e he hc
      by_cases hcond : expectedAmountOf info2 ≠ amount ∧ 0 < expectedAmountOf info2
      · obtain ⟨rr, hrc⟩ := hrr hcond
        have hrec := recoverStep_mismatch_retry amount env cR.data e info2 rr
          he hc hre hcond hrc
        have hms : (mergeBody cR.data rr.data).error.isSome = true := by
          cases hrre : rr.data.error <;> simp [mergeBody, he, hrre]
        refine ⟨some (normalizeDeclineError (errorInfoOf (mergeBody cR.data rr.data))),
          1 + 1, ?_⟩
        rw [iterStep_eq_classify amount env pmR cR _ _ h1 h2 h3 h4 hrec]
        rw [classifyStep_declined _ _ _ (Or.inl hms)]
      · have hrec := recoverStep_mismatch_stale amount env cR.data e info2 he hc hre hcond
        refine ⟨some (normalizeDeclineError (errorInfoOf cR.data)), 1 + 0, ?_⟩
        rw [iterStep_eq_classify amount env pmR cR _ _ h1 h2 h3 h4 hrec]
        rw [classifyStep_declined _ _ _ (Or.inl (by rw [he]; rfl))]
    · have hrec := recoverStep_of_not_mismatch amount env cR.data e he hc
      refine ⟨some (normalizeDeclineError (errorInfoOf cR.data)), 1 + 0, ?_⟩
      rw [iterStep_eq_classify amount env pmR cR _ _ h1 h2 h3 h4 hrec]
      rw [classifyStep_declined _ _ _ (Or.inl (by rw [he]; rfl))]

theorem runAttempts_ret_after (amount : Int) (envs : Nat → IterEnv) :
    ∀ k fuel a cr cf le r c2,
      k < fuel →
      (∀ j, j < k → ∃ e c, iterStep amount (envs (a + j)) = (.cont e, c)) →
      iterStep amount (envs (a + k)) = (.ret r, c2) →
      ∃ cf2, runAttempts amount envs fuel a cr cf le =
        ⟨a + k + 1, cr + k + 1, cf2, .inl r⟩ := by
  intro k
  induction k with
  | zero =>
    intro fuel a cr cf le r c2 hk _ hret
    rcases fuel with _ | f
    · omega
    · rw [Nat.add_zero] at hret
      simp only [runAttempts, hret]
      exact ⟨cf + c2, rfl⟩
  | succ n ih =>
    intro fuel a cr cf le r c2 hk hprev hret
    rcases fuel with _ | f
    · omega
    obtain ⟨e0, c0, h0⟩ := hprev 0 (by omega)
    rw [Nat.add_zero] at h0
    simp only [runAttempts, h0]
    have hprev2 : ∀ j, j < n → ∃ e c, iterStep amount (envs (a + 1 + j)) = (.cont e, c) := by
      intro j hj
      have hj2 := hprev (j + 1) (by omega)
      rwa [show a + (j + 1) = a + 1 + j by omega] at hj2
    have hret2 : iterStep amount (envs (a + 1 + n)) = (.ret r, c2) := by
      rwa [show a + (n + 1) = a + 1 + n by omega] at hret
    obtain ⟨cf2, hrun⟩ := ih f (a + 1) (cr + 1) (cf + c0) e0 r c2 (by omega) hprev2 hret2
    refine ⟨cf2, ?_⟩
    rw [hrun]
    have e1 : a + 1 + n + 1 = a + (n + 1) + 1 := by omega
    have e2 : cr + 1 + n + 1 = cr + (n + 1) + 1 := by omega
    rw [e1, e2]

/-- C4 (amended): if on iteration `k` of the retry loop the confirm
response has `payment_intent.status = requires_payment_method`, or
carries an error object or a `last_payment_error`, then — provided
that, when the error code is `checkout_amount_mismatch`, the recovery
re-fetch (and, if a corrective confirm is issued, that confirm) does
not throw — `attemptPayment` returns immediately with status
`declined` and `success = false` after exactly `k + 1` create+confirm
cycles, regardless of the retries remaining.  (When a recovery call
throws, the code instead records the exception and continues the loop,
which is what the counterexample exhibits.) -/
theorem c4_declined_terminal (info : CheckoutInfo) (envs : Nat → IterEnv) (retries k : Nat)
    (pmR : HttpResp PMBody) (cR : HttpResp ConfirmBody)
    (hk : k ≤ retries)
    (hprev : ∀ j, j < k → ∃ e c, iterStep (expectedAmountOf info) (envs j) = (.cont e, c))
    (h1 : (envs k).pm = .ok pmR) (h2 : pmR.statusCode = 200)
    (h3 : jsStrFalsy pmR.data.id = false)
    (h4 : (envs k).confirm = .ok cR)
    (hsig : (∃ pi, cR.data.payment_intent = some pi ∧
        (pi.status = some "requires_payment_method" ∨
         pi.last_payment_error.isSome = true)) ∨
      cR.data.error.isSome = true)
    (hsafe : ∀ e, cR.data.error = some e →
      e.code = some "checkout_amount_mismatch" →
      ∃ info2, (envs k).refetch = .ok info2 ∧
        (expectedAmountOf info2 ≠ expectedAmountOf info ∧ 0 < expectedAmountOf info2 →
          ∃ rr, (envs k).retryConfirm = .ok rr)) :
    (attemptPayment info envs retries).success = false ∧
    (attemptPayment info envs retries).status = "declined" ∧
    (attemptPayment info envs retries).attempts = k + 1 ∧
    (attemptRun info envs retries).creates = k + 1 := by
  obtain ⟨er, c2, hstep⟩ :=
    iterStep_declines (expectedAmountOf info) (envs k) pmR cR h1 h2 h3 h4 hsig hsafe
  have hprev0 : ∀ j, j < k →
      ∃ e c, iterStep (expectedAmountOf info) (envs (0 + j)) = (.cont e, c) := by
    intro j hj
    simpa [Nat.zero_add] using hprev j hj
  have hret0 : iterStep (expectedAmountOf info) (envs (0 + k)) =
      (.ret { success := false, status := "declined", error := er }, c2) := by
    simpa [Nat.zero_add] using hstep
  obtain ⟨cf2, hrun⟩ := runAttempts_ret_after (expectedAmountOf info) envs k
    (retries + 1) 0 0 0 .noneYet _ c2 (by omega) hprev0 hret0
  have hrun2 : attemptRun info envs retries =
      ⟨k + 1, k + 1, cf2, .inl { success := false, status := "declined", error := er }⟩ := by
    have hq : attemptRun info envs retries =
        runAttempts (expectedAmountOf info) envs (retries + 1) 0 0 0 .noneYet := rfl
    rw [hq, hrun]
    have e1 : 0 + k + 1 = k + 1 := by omega
    rw [e1]
  have hp : attemptPayment info envs retries =
      { success := false, attempts := k + 1, status := "declined",
        errorCode := er.bind ErrorObj.code, requires3DS := false } := by
    unfold attemptPayment
    rw [hrun2]
  rw [hp, hrun2]
  exact ⟨rfl, rfl, rfl, rfl⟩

/-- Witness for C4 (amended) at a concrete declined confirm on the
first iteration. -/
theorem c4_witness :
    (attemptPayment exInfo0 (fun _ => exEnvC4b) 2).success = false ∧
    (attemptPayment exInfo0 (fun _ => exEnvC4b) 2).status = "declined" ∧
    (attemptPayment exInfo0 (fun _ => exEnvC4b) 2).attempts = 0 + 1 ∧
    (attemptRun exInfo0 (fun _ => exEnvC4b) 2).creates = 0 + 1 :=
  c4_declined_terminal exInfo0 (fun _ => exEnvC4b) 2 0
    ⟨200, { id := some "pm_2" }⟩
    ⟨402, { error := some { code := some "card_declined" } }⟩
    (by omega) (fun j hj => absurd hj (by omega))
    (by decide) (by decide) (by decide) (by decide)
    (Or.inr (by decide))
    (by
      intro e he hc
      cases Option.some.inj he
      exact absurd hc (by decide))

/-! ## Lemmas on the URL decoding stages -/

theorem percentDecode_no_pct : ∀ (l : List Char), '%' ∉ l → percentDecode l = some l
  | [] => fun _ => rfl
  | [c] => by
    intro h
    simp only [List.mem_cons, not_or, List.not_mem_nil] at h
    simp only [percentDecode]
    rw [if_neg (fun hc => h.1 hc.symm)]
    rfl
  | [c, c1] => by
    intro h
    simp only [List.mem_cons, not_or, List.not_mem_nil] at h
    simp only [percentDecode]
    rw [if_neg (fun hc => h.1 hc.symm), if_neg (fun hc => h.2.1 hc.symm)]
    rfl
  | c :: c1 :: c2 :: rest => by
    intro h
    simp only [List.mem_cons, not_or] at h
    have htail : '%' ∉ c1 :: c2 :: rest := by
      simp only [List.mem_cons, not_or]
      exact ⟨h.2.1, h.2.2⟩
    simp only [percentDecode]
    rw [if_neg (fun hc => h.1 hc.symm),
      percentDecode_no_pct (c1 :: c2 :: rest) htail]
    rfl

theorem b64Alphabet_length : b64Alphabet.length = 64 := by decide

theorem b64Enc_mem (v : Nat) : b64Enc v ∈ b64Alphabet := by
  unfold b64Enc
  have hv : v % 64 < b64Alphabet.length := by
    rw [b64Alphabet_length]
    exact Nat.mod_lt _ (by omega)
  rw [List.getD_eq_getElem?_getD, List.getElem?_eq_getElem hv]
  exact List.getElem_mem hv

theorem b64Enc_ne_pad (v : Nat) : ¬ b64Enc v = '=' := by
  intro hEq
  have hm := b64Enc_mem v
  rw [hEq] at hm
  exact absurd hm (by decide)

theorem b64encode_chars : ∀ (bs : List Nat), ∀ c ∈ b64encode bs, c ∈ b64Alphabet ∨ c = '='
  | [] => by intro c hc; cases hc
  | [b1] => by
    intro c hc
    simp only [b64encode, List.mem_cons, List.not_mem_nil, or_false] at hc
    rcases hc with rfl | rfl | rfl | rfl
    · exact Or.inl (b64Enc_mem _)
    · exact Or.inl (b64Enc_mem _)
    · exact Or.inr rfl
    · exact Or.inr rfl
  | [b1, b2] => by
    intro c hc
    simp only [b64encode, List.mem_cons, List.not_mem_nil, or_false] at hc
    rcases hc with rfl | rfl | rfl | rfl
    · exact Or.inl (b64Enc_mem _)
    · exact Or.inl (b64Enc_mem _)
    · exact Or.inl (b64Enc_mem _)
    · exact Or.inr rfl
  | b1 :: b2 :: b3 :: rest => by
    intro c hc
    simp only [b64encode, List.mem_cons] at hc
    rcases hc with rfl | rfl | rfl | rfl | hc
    · exact Or.inl (b64Enc_mem _)
    · exact Or.inl (b64Enc_mem _)
    · exact Or.inl (b64Enc_mem _)
    · exact Or.inl (b64Enc_mem _)
    · exact b64encode_chars rest c hc

set_option maxRecDepth 20000 in
theorem b64Dec_Enc (v : Nat) (h : v < 64) : b64Dec (b64Enc v) = v := by
  have hb : ∀ x, x < 64 → b64Dec (b64Enc x) = x := by decide
  exact hb v h

set_option maxRecDepth 20000 in
theorem xor5_lt (b : Nat) (h : b < 256) : b ^^^ 5 < 256 := by
  have hb : ∀ x, x < 256 → x ^^^ 5 < 256 := by decide
  exact hb b h

theorem xor5_xor5 (b : Nat) : (b ^^^ 5) ^^^ 5 = b := by
  rw [Nat.xor_assoc]
  simp

theorem b64_roundtrip : ∀ (bs : List Nat), (∀ b ∈ bs, b < 256) →
    b64decode (b64encode bs) = bs
  | [] => by intro _; rfl
  | [b1] => by
    intro h
    have hb1 : b1 < 256 := h b1 (by simp)
    simp only [b64encode, b64decode, eq_self_iff_true, if_true]
    rw [b64Dec_Enc (b1 / 4) (by omega), b64Dec_Enc (b1 % 4 * 16) (by omega)]
    have e1 : b1 / 4 * 4 + b1 % 4 * 16 / 16 = b1 := by omega
    rw [e1]
  | [b1, b2] => by
    intro h
    have hb1 : b1 < 256 := h b1 (by simp)
    have hb2 : b2 < 256 := h b2 (by simp)
    simp only [b64encode, b64decode]
    rw [if_neg (b64Enc_ne_pad _)]
    simp only [eq_self_iff_true, if_true]
    rw [b64Dec_Enc (b1 / 4) (by omega), b64Dec_Enc (b1 % 4 * 16 + b2 / 16) (by omega),
      b64Dec_Enc (b2 % 16 * 4) (by omega)]
    have e1 : b1 / 4 * 4 + (b1 % 4 * 16 + b2 / 16) / 16 = b1 := by omega
    have e2 : (b1 % 4 * 16 + b2 / 16) % 16 * 16 + b2 % 16 * 4 / 4 = b2 := by omega
    rw [e1, e2]
  | b1 :: b2 :: b3 :: rest => by
    intro h
    have hb1 : b1 < 256 := h b1 (by simp)
    have hb2 : b2 < 256 := h b2 (by simp)
    have hb3 : b3 < 256 := h b3 (by simp)
    have hrec := b64_roundtrip rest (fun b hb => h b (by simp [hb]))
    simp only [b64encode, b64decode]
    rw [if_neg (b64Enc_ne_pad _), if_neg (b64Enc_ne_pad _)]
    rw [b64Dec_Enc (b1 / 4) (by omega), b64Dec_Enc (b1 % 4 * 16 + b2 / 16) (by omega),
      b64Dec_Enc (b2 % 16 * 4 + b3 / 64) (by omega), b64Dec_Enc (b3 % 64) (by omega)]
    have e1 : b1 / 4 * 4 + (b1 % 4 * 16 + b2 / 16) / 16 = b1 := by omega
    have e2 : (b1 % 4 * 16 + b2 / 16) % 16 * 16 + (b2 % 16 * 4 + b3 / 64) / 4 = b2 := by
      omega
    have e3 : (b2 % 16 * 4 + b3 / 64) % 4 * 64 + b3 % 64 = b3 := by omega
    rw [e1, e2, e3, hrec]

/-! ## Lemmas on the token matcher -/

theorem takeWhile_append_sep (p : Char → Bool) (a : Char) (xs ys : List Char)
    (h : p a = false) : (xs ++ a :: ys).takeWhile p = xs.takeWhile p := by
  induction xs with
  | nil => simp [List.takeWhile_cons, h]
  | cons x xs ih =>
    simp only [List.cons_append, List.takeWhile_cons]
    by_cases hx : p x
    · simp [hx, ih]
    · simp [hx]

theorem pfxMatchAt_append_sep (pfx s w : List Char) (hp : '#' ∉ pfx) :
    pfxMatchAt pfx (s ++ '#' :: w) = pfxMatchAt pfx s := by
  unfold pfxMatchAt
  by_cases hl : pfx.length ≤ s.length
  · rw [List.take_append_of_le_length hl, List.drop_append_of_le_length hl]
    by_cases ht : s.take pfx.length = pfx
    · rw [if_pos ht, if_pos ht,
        takeWhile_append_sep isTokenChar '#' (s.drop pfx.length) w (by decide)]
    · rw [if_neg ht, if_neg ht]
  · push_neg at hl
    have hns : ¬ s.take pfx.length = pfx := by
      rw [List.take_of_length_le (by omega)]
      intro hEq
      have hlen := congrArg List.length hEq
      omega
    rw [if_neg hns]
    have hn2 : ¬ (s ++ '#' :: w).take pfx.length = pfx := by
      intro hEq
      have hx : ((s ++ '#' :: w).take pfx.length)[s.length]? = some '#' := by
        rw [List.getElem?_take, if_pos hl,
          List.getElem?_append_right (le_refl s.length)]
        simp
      rw [hEq] at hx
      exact hp (List.getElem?_mem hx)
    rw [if_neg hn2]

theorem firstTokenMatch_none_no_underscore (p1 p2 : List Char)
    (hu1 : '_' ∈ p1) (hu2 : '_' ∈ p2) :
    ∀ s : List Char, '_' ∉ s → firstTokenMatch p1 p2 s = none := by
  intro s
  induction s with
  | nil => intro _; rfl
  | cons c rest ih =>
    intro h
    simp only [List.mem_cons, not_or] at h
    have m1 : pfxMatchAt p1 (c :: rest) = none := by
      unfold pfxMatchAt
      have hne : ¬ (c :: rest).take p1.length = p1 := by
        intro hEq
        have hu : '_' ∈ (c :: rest).take p1.length := by rw [hEq]; exact hu1
        have hmem := List.take_subset _ _ hu
        simp only [List.mem_cons] at hmem
        rcases hmem with h3 | h3
        · exact h.1 h3
        · exact h.2 h3
      rw [if_neg hne]
    have m2 : pfxMatchAt p2 (c :: rest) = none := by
      unfold pfxMatchAt
      have hne : ¬ (c :: rest).take p2.length = p2 := by
        intro hEq
        have hu : '_' ∈ (c :: rest).take p2.length := by rw [hEq]; exact hu2
        have hmem := List.take_subset _ _ hu
        simp only [List.mem_cons] at hmem
        rcases hmem with h3 | h3
        · exact h.1 h3
        · exact h.2 h3
      rw [if_neg hne]
    simp only [firstTokenMatch, tokenMatchAt, m1, m2, Option.none_orElse]
    exact ih h.2

theorem firstTokenMatch_append_sep (p1 p2 : List Char)
    (hp1 : '#' ∉ p1) (hp2 : '#' ∉ p2) (hu1 : '_' ∈ p1) (hu2 : '_' ∈ p2)
    (w : List Char) (hw : '_' ∉ w) :
    ∀ s : List Char, firstTokenMatch p1 p2 (s ++ '#' :: w) = firstTokenMatch p1 p2 s := by
  intro s
  induction s with
  | nil =>
    simp only [List.nil_append]
    rw [firstTokenMatch_none_no_underscore p1 p2 hu1 hu2 ('#' :: w)
      (by simp only [List.mem_cons, not_or]; exact ⟨by decide, hw⟩)]
    rfl
  | cons c rest ih =>
    have hA : tokenMatchAt p1 p2 ((c :: rest) ++ '#' :: w) = tokenMatchAt p1 p2 (c :: rest) := by
      unfold tokenMatchAt
      rw [pfxMatchAt_append_sep p1 (c :: rest) w hp1,
        pfxMatchAt_append_sep p2 (c :: rest) w hp2]
    simp only [List.cons_append] at hA
    simp only [List.cons_append, firstTokenMatch, List.append_eq]
    rw [hA, ih]

theorem findIdx?_hash_append : ∀ (base w : List Char) (i : Nat), '#' ∉ base →
    List.findIdx? (fun c => c = '#') (base ++ '#' :: w) i = some (i + base.length)
  | [], w, i => by
    intro _
    simp [List.findIdx?]
  | c :: rest, w, i => by
    intro h
    simp only [List.mem_cons, not_or] at h
    simp only [List.cons_append, List.findIdx?, List.append_eq]
    rw [if_neg (by simp only [decide_eq_true_eq]; exact fun hc => h.1 hc.symm)]
    rw [findIdx?_hash_append rest w (i + 1) h.2]
    simp only [List.length_cons, Option.some.injEq]
    omega

theorem drop_append_hash (base w : List Char) :
    (base ++ '#' :: w).drop (base.length + 1) = w := by
  have h1 : base ++ '#' :: w = (base ++ ['#']) ++ w := by simp
  have h2 : base.length + 1 = (base ++ ['#']).length := by simp
  rw [h1, h2, List.drop_left]

/-! ## C6: obfuscated URL round trip -/

/-- C6: for every URL built as `base # base64(payload XOR 5)` where
the base carries a session token (and no percent sign or hash of its
own) and the payload string carries a public key token,
`parseCheckoutUrl` recovers exactly that session id and that public
key.  `payload` is the byte list of the internal payload string;
`hsid`/`hpk` fix the tokens as the leftmost regex matches of the base
and of the payload. -/
theorem c6_parse_roundtrip (base : List Char) (payload : List Nat)
    (sid pk : List Char)
    (hb1 : '%' ∉ base) (hb2 : '#' ∉ base)
    (hbytes : ∀ b ∈ payload, b < 256)
    (hsid : firstTokenMatch csLivePfx csTestPfx base = some sid)
    (hpk : firstTokenMatch pkLivePfx pkTestPfx
      (payload.map (fun b => Char.ofNat b)) = some pk) :
    (parseCheckoutUrl (base ++ '#' ::
        b64encode (payload.map (fun b => b ^^^ xorKey)))).sessionId = some sid ∧
    (parseCheckoutUrl (base ++ '#' ::
        b64encode (payload.map (fun b => b ^^^ xorKey)))).publicKey = some pk := by
  have hwchars := b64encode_chars (payload.map (fun b => b ^^^ xorKey))
  have hwpct : '%' ∉ b64encode (payload.map (fun b => b ^^^ xorKey)) := by
    intro hc
    rcases hwchars _ hc with hA | hA
    · exact absurd hA (by decide)
    · exact absurd hA (by decide)
  have hwund : '_' ∉ b64encode (payload.map (fun b => b ^^^ xorKey)) := by
    intro hc
    rcases hwchars _ hc with hA | hA
    · exact absurd hA (by decide)
    · exact absurd hA (by decide)
  have hne : base ++ '#' :: b64encode (payload.map (fun b => b ^^^ xorKey)) ≠ [] := by
    simp
  have hupct : '%' ∉ base ++ '#' :: b64encode (payload.map (fun b => b ^^^ xorKey)) := by
    simp only [List.mem_append, List.mem_cons, not_or]
    exact ⟨hb1, by decide, hwpct⟩
  have hdec := percentDecode_no_pct _ hupct
  have hsid2 : firstTokenMatch csLivePfx csTestPfx
      (base ++ '#' :: b64encode (payload.map (fun b => b ^^^ xorKey))) = some sid := by
    rw [firstTokenMatch_append_sep csLivePfx csTestPfx (by decide) (by decide)
      (by decide) (by decide) _ hwund base]
    exact hsid
  have hfind := findIdx?_hash_append base
    (b64encode (payload.map (fun b => b ^^^ xorKey))) 0 hb2
  have hdrop := drop_append_hash base (b64encode (payload.map (fun b => b ^^^ xorKey)))
  have hdecW := percentDecode_no_pct _ hwpct
  have hBD : b64decode (b64encode (payload.map (fun b => b ^^^ xorKey))) =
      payload.map (fun b => b ^^^ xorKey) := by
    refine b64_roundtrip _ ?_
    intro b hb
    simp only [List.mem_map] at hb
    obtain ⟨x, hx, rfl⟩ := hb
    exact xor5_lt x (hbytes x hx)
  have hmap : (payload.map (fun b => b ^^^ xorKey)).map
      (fun b => Char.ofNat (b ^^^ xorKey)) = payload.map (fun b => Char.ofNat b) := by
    rw [List.map_map]
    refine List.map_congr_left ?_
    intro x _
    show Char.ofNat ((x ^^^ xorKey) ^^^ xorKey) = Char.ofNat x
    rw [show xorKey = 5 from rfl, xor5_xor5]
  have hp : parseCheckoutUrl (base ++ '#' ::
      b64encode (payload.map (fun b => b ^^^ xorKey))) =
      ⟨some sid, some pk, firstSiteMatch (payload.map (fun b => Char.ofNat b))⟩ := by
    simp only [parseCheckoutUrl]
    rw [if_neg hne, hdec]
    simp only [Option.getD_some]
    simp only [hfind]
    rw [Nat.zero_add, hdrop]
    simp only [hdecW]
    rw [hBD, hmap, hsid2, hpk]
  exact ⟨by rw [hp], by rw [hp]⟩

/-- Witness for C6 at a concrete base and payload. -/
theorem c6_witness :
    (parseCheckoutUrl (exC6base ++ '#' ::
        b64encode (exC6payload.map (fun b => b ^^^ xorKey)))).sessionId =
      some ("cs_test_a1b2".toList) ∧
    (parseCheckoutUrl (exC6base ++ '#' ::
        b64encode (exC6payload.map (fun b => b ^^^ xorKey)))).publicKey =
      some ("pk_test_k9z".toList) :=
  c6_parse_roundtrip exC6base exC6payload ("cs_test_a1b2".toList) ("pk_test_k9z".toList)
    (by decide) (by decide) (by decide) (by decide) (by decide)

/-! ## C7: parse totality and field shapes -/

theorem pfxMatchAt_shape (pfx s t : List Char) (h : pfxMatchAt pfx s = some t) :
    ∃ body, t = pfx ++ body ∧ body ≠ [] ∧ body.all isTokenChar = true := by
  unfold pfxMatchAt at h
  by_cases h1 : s.take pfx.length = pfx
  · rw [if_pos h1] at h
    by_cases h2 : (s.drop pfx.length).takeWhile isTokenChar = []
    · rw [if_pos h2] at h
      cases h
    · rw [if_neg h2] at h
      refine ⟨(s.drop pfx.length).takeWhile isTokenChar, (Option.some.inj h).symm, h2, ?_⟩
      rw [List.all_eq_true]
      intro x hx
      exact List.mem_takeWhile_imp hx
  · rw [if_neg h1] at h
    cases h

theorem tokenMatchAt_shape (p1 p2 s t : List Char) (h : tokenMatchAt p1 p2 s = some t) :
    ∃ pfx body, (pfx = p1 ∨ pfx = p2) ∧ t = pfx ++ body ∧ body ≠ [] ∧
      body.all isTokenChar = true := by
  unfold tokenMatchAt at h
  cases hA : pfxMatchAt p1 s with
  | some m =>
    rw [hA, Option.some_orElse] at h
    obtain rfl := Option.some.inj h
    obtain ⟨body, hb, hne, hall⟩ := pfxMatchAt_shape p1 s m hA
    exact ⟨p1, body, Or.inl rfl, hb, hne, hall⟩
  | none =>
    rw [hA, Option.none_orElse] at h
    obtain ⟨body, hb, hne, hall⟩ := pfxMatchAt_shape p2 s t h
    exact ⟨p2, body, Or.inr rfl, hb, hne, hall⟩

theorem firstTokenMatch_shape (p1 p2 : List Char) : ∀ (s t : List Char),
    firstTokenMatch p1 p2 s = some t →
    ∃ pfx body, (pfx = p1 ∨ pfx = p2) ∧ t = pfx ++ body ∧ body ≠ [] ∧
      body.all isTokenChar = true
  | [], t, h => by cases h
  | c :: rest, t, h => by
    rw [firstTokenMatch] at h
    cases hA : tokenMatchAt p1 p2 (c :: rest) with
    | some m =>
      rw [hA, Option.some_orElse] at h
      obtain rfl := Option.some.inj h
      exact tokenMatchAt_shape p1 p2 _ _ hA
    | none =>
      rw [hA, Option.none_orElse] at h
      exact firstTokenMatch_shape p1 p2 rest t h

theorem isTokenShape_of_match (p1 p2 t : List Char) (h1 : p1.length = 8)
    (h2 : p2.length = 8) (pfx body : List Char) (hp : pfx = p1 ∨ pfx = p2)
    (ht : t = pfx ++ body) (hne : body ≠ []) (hall : body.all isTokenChar = true) :
    isTokenShape p1 p2 t = true := by
  subst ht
  rcases hp with rfl | rfl
  · have hta : (pfx ++ body).take 8 = pfx := by rw [← h1, List.take_left]
    have hda : (pfx ++ body).drop 8 = body := by rw [← h1, List.drop_left]
    simp [isTokenShape, hta, hda, hne, hall]
  · have hta : (pfx ++ body).take 8 = pfx := by rw [← h2, List.take_left]
    have hda : (pfx ++ body).drop 8 = body := by rw [← h2, List.drop_left]
    simp [isTokenShape, hta, hda, hne, hall]

theorem sitePfxMatch_shape (p s t : List Char) (h : sitePfxMatch p s = some t) :
    ∃ body, t = p ++ body ∧ body ≠ [] ∧ body.all isSiteChar = true := by
  unfold sitePfxMatch at h
  by_cases h2 : (s.drop p.length).takeWhile isSiteChar = []
  · rw [if_pos h2] at h
    cases h
  · rw [if_neg h2] at h
    refine ⟨(s.drop p.length).takeWhile isSiteChar, (Option.some.inj h).symm, h2, ?_⟩
    rw [List.all_eq_true]
    intro x hx
    exact List.mem_takeWhile_imp hx

theorem siteMatchAt_shape (s t : List Char) (h : siteMatchAt s = some t) :
    isSiteShape t = true := by
  unfold siteMatchAt at h
  by_cases h8 : s.take 8 = "https://".toList
  · rw [if_pos h8] at h
    obtain ⟨body, rfl, hne, hall⟩ := sitePfxMatch_shape _ _ _ h
    have hta : ("https://".toList ++ body).take 8 = "https://".toList := by
      rw [show (8 : Nat) = ("https://".toList : List Char).length from by decide,
        List.take_left]
    have hda : ("https://".toList ++ body).drop 8 = body := by
      rw [show (8 : Nat) = ("https://".toList : List Char).length from by decide,
        List.drop_left]
    simp [isSiteShape, hta, hda, hne, hall]
  · rw [if_neg h8] at h
    by_cases h7 : s.take 7 = "http://".toList
    · rw [if_pos h7] at h
      obtain ⟨body, rfl, hne, hall⟩ := sitePfxMatch_shape _ _ _ h
      have hta : ("http://".toList ++ body).take 7 = "http://".toList := by
        rw [show (7 : Nat) = ("http://".toList : List Char).length from by decide,
          List.take_left]
      have hda : ("http://".toList ++ body).drop 7 = body := by
        rw [show (7 : Nat) = ("http://".toList : List Char).length from by decide,
          List.drop_left]
      simp [isSiteShape, hta, hda, hne, hall]
    · rw [if_neg h7] at h
      cases h

theorem firstSiteMatch_shape : ∀ (s t : List Char),
    firstSiteMatch s = some t → isSiteShape t = true
  | [], t, h => by cases h
  | c :: rest, t, h => by
    rw [firstSiteMatch] at h
    cases hA : siteMatchAt (c :: rest) with
    | some m =>
      rw [hA, Option.some_orElse] at h
      obtain rfl := Option.some.inj h
      exact siteMatchAt_shape _ _ hA
    | none =>
      rw [hA, Option.none_orElse] at h
      exact firstSiteMatch_shape rest t h

/-- C7: `parseCheckoutUrl` is a total function on strings (the
embedding returns a `ParsedCheckout` record for every input, every
fallible stage being handled), and each field is either `null` or a
well-formed extraction: a returned session id or public key has the
token shape of its regex, and a returned site hint the shape of the
site regex. -/
theorem c7_parse_shapes (url : List Char) :
    (∀ sid, (parseCheckoutUrl url).sessionId = some sid →
      isTokenShape csLivePfx csTestPfx sid = true) ∧
    (∀ pk, (parseCheckoutUrl url).publicKey = some pk →
      isTokenShape pkLivePfx pkTestPfx pk = true) ∧
    (∀ st, (parseCheckoutUrl url).site = some st → isSiteShape st = true) := by
  have hshape : ∀ (p1 p2 : List Char), p1.length = 8 → p2.length = 8 →
      ∀ (s t : List Char), firstTokenMatch p1 p2 s = some t →
      isTokenShape p1 p2 t = true := by
    intro p1 p2 h1 h2 s t hm
    obtain ⟨pfx, body, hp, ht, hne, hall⟩ := firstTokenMatch_shape p1 p2 s t hm
    exact isTokenShape_of_match p1 p2 t h1 h2 pfx body hp ht hne hall
  refine ⟨fun sid h => ?_, fun pk h => ?_, fun st h => ?_⟩
  · unfold parseCheckoutUrl at h
    split at h
    · simp at h
    · dsimp only at h
      split at h
      · dsimp only at h
        exact hshape _ _ (by decide) (by decide) _ _ h
      · split at h
        · dsimp only at h
          exact hshape _ _ (by decide) (by decide) _ _ h
        · dsimp only at h
          exact hshape _ _ (by decide) (by decide) _ _ h
  · unfold parseCheckoutUrl at h
    split at h
    · simp at h
    · dsimp only at h
      split at h
      · simp at h
      · split at h
        · simp at h
        · dsimp only at h
          exact hshape _ _ (by decide) (by decide) _ _ h
  · unfold parseCheckoutUrl at h
    split at h
    · simp at h
    · dsimp only at h
      split at h
      · simp at h
      · split at h
        · simp at h
        · dsimp only at h
          exact firstSiteMatch_shape _ _ h

/-- Witness for C7 at a concrete URL whose session id is extracted. -/
theorem c7_witness :
    isTokenShape csLivePfx csTestPfx ("cs_test_a1b2".toList) = true :=
  (c7_parse_shapes ("https://x.example/cs_test_a1b2".toList)).1
    ("cs_test_a1b2".toList) (by decide)

end Argas
